import Mathlib

/-!
Verification of the fetch-filter-enrich pipeline of the sasakura-newsletter
repository (`content_fetcher.py`, `run_newsletter_auto.py`).

Conventions of the embedding:
* Python strings are Lean `String`s (lists of unicode scalar chars).
* `datetime` instants are modelled as `Int` (only their linear order and
  equality are ever used by the code under verification); the third-party
  fuzzy date parser `dateutil.parser.parse` is an external library, so it is
  passed in as a function parameter `parse : String → Option Int` returning
  the parsed instant after `tzinfo` stripping (`None` models a parse failure,
  i.e. a raised exception).
* Machine floats appear only in `SequenceMatcher.ratio()`; the ratio
  `2.0 * matches / total` is modelled as the exact rational `mkRat (2*M) total`
  and the threshold `0.6` as `mkRat 3 5`.  For title lengths far below 2^50
  the float comparison `ratio > 0.6` agrees with the exact rational one.
* Fallible Python operations are modelled in `Except`; `try/except` blocks
  become explicit `match`es on the `Except` value.
-/

namespace Newsletter

/-! ## Python substring test (`term in title`, `'gemini' in model`)

`needle in hay` on Python `str` is the case-sensitive contiguous substring
test.  `pyIn` scans every start offset. -/

/-- The Python `in` operator on strings: `needle` occurs as a contiguous
(case-sensitive) substring of `hay`. -/
def listIn (needle hay : List Char) : Bool :=
  (List.range (hay.length + 1)).any fun i =>
    (hay.drop i).take needle.length == needle

/-- `needle in hay` for Lean strings. -/
def pyIn (needle hay : String) : Bool :=
  listIn needle.data hay.data

/-! ## The span located by `re.search(r'\x7b.*\x7d', text, re.DOTALL)`

The regex matches from the leftmost `{` that has some `}` after it, with the
greedy `.*` (DOTALL) running to the last `}` of the whole text.  Dropping the
prefix before the first `{` and the suffix after the last `}` computes exactly
that span (see `extract_json` in `run_newsletter_auto.py`). -/

/-- The substring matched by `re.search` with pattern `\x7b.*\x7d` under
`re.DOTALL`: from the first `{` that is followed by some `}`, up to the last
`}` of the text; `none` when there is no such match. -/
def extractSpan (cs : List Char) : Option (List Char) :=
  if ((cs.dropWhile fun c => c != '{').contains '}') then
    some (((cs.dropWhile fun c => c != '{').reverse.dropWhile fun c => c != '}').reverse)
  else
    none

/-! ## JSON values and `json.loads`

`json.loads` is the standard-library strict JSON decoder used by
`extract_json`.  A decode failure raises `json.JSONDecodeError`; in addition,
CPython enforces the interpreter recursion limit while scanning nested
containers and raises `RecursionError` (a `RuntimeError`, **not** a
`JSONDecodeError`) on input nested more deeply — both are modelled as `PyErr`
constructors, and only the former is absorbed by the handler in
`extract_json`.  Numeric literals are kept as their source lexeme (the
pipeline never inspects a parsed number), and a lone surrogate `\uXXXX`
escape — which CPython would keep in the `str` but which is not a unicode
scalar — degrades to `U+0000`; no claim depends on either. -/

/-- The exceptions the modelled fallible library calls can raise:
`json.JSONDecodeError` and `RecursionError` from `json.loads`. -/
inductive PyErr where
  | jsonDecodeError (msg : String)
  | recursionError (msg : String)

/-- The default interpreter recursion limit (`sys.getrecursionlimit()`),
against which the decoder counts container nesting.  The stack frames already
live when `json.loads` is entered are abstracted to zero, so the modelled
decoder accepts nesting up to exactly this depth; a real interpreter raises a
few frames sooner, and both raise on any input nested beyond it. -/
def pyRecursionLimit : Nat := 1000

/-- Python values produced by `json.loads`: objects keep key insertion order,
re-assigned duplicate keys keep their first position with the last value. -/
inductive Json where
  | null
  | bool (b : Bool)
  | str (s : String)
  | num (lexeme : String)
  | arr (elems : List Json)
  | obj (entries : List (String × Json))

/-- JSON whitespace accepted between tokens by the decoder. -/
def isJsonWs (c : Char) : Bool :=
  c == ' ' || c == '\t' || c == '\n' || c == '\r'

def skipWs (cs : List Char) : List Char :=
  cs.dropWhile isJsonWs

def hexDigitVal (c : Char) : Option Nat :=
  if '0' ≤ c ∧ c ≤ '9' then some (c.toNat - 48)
  else if 'a' ≤ c ∧ c ≤ 'f' then some (c.toNat - 87)
  else if 'A' ≤ c ∧ c ≤ 'F' then some (c.toNat - 55)
  else none

def parseHex4 : List Char → Option (Nat × List Char)
  | c1 :: c2 :: c3 :: c4 :: rest =>
    match hexDigitVal c1, hexDigitVal c2, hexDigitVal c3, hexDigitVal c4 with
    | some a, some b, some c, some d => some ((((a * 16 + b) * 16 + c) * 16 + d), rest)
    | _, _, _, _ => none
  | _ => none

/-- Body of a JSON string literal, after the opening quote.  Strict mode:
raw control characters below `U+0020` are rejected; the eight standard
escapes and `\uXXXX` (with surrogate-pair combination) are decoded.  String
scanning is iterative in CPython; the fuel guard is unreachable because every
step consumes input and the callers supply more fuel than the input length. -/
def parseStringBody : Nat → List Char → List Char → Except PyErr (String × List Char)
  | 0, _, _ => .error (.recursionError "model fuel exhausted")
  | fuel + 1, cs, acc =>
    match cs with
    | [] => .error (.jsonDecodeError "Unterminated string")
    | '"' :: rest => .ok (String.mk acc.reverse, rest)
    | '\\' :: rest =>
      match rest with
      | [] => .error (.jsonDecodeError "Unterminated string")
      | e :: r2 =>
        if e == '"' then parseStringBody fuel r2 ('"' :: acc)
        else if e == '\\' then parseStringBody fuel r2 ('\\' :: acc)
        else if e == '/' then parseStringBody fuel r2 ('/' :: acc)
        else if e == 'b' then parseStringBody fuel r2 ('\x08' :: acc)
        else if e == 'f' then parseStringBody fuel r2 ('\x0C' :: acc)
        else if e == 'n' then parseStringBody fuel r2 ('\n' :: acc)
        else if e == 'r' then parseStringBody fuel r2 ('\r' :: acc)
        else if e == 't' then parseStringBody fuel r2 ('\t' :: acc)
        else if e == 'u' then
          match parseHex4 r2 with
          | none => .error (.jsonDecodeError "Invalid uXXXX escape")
          | some (n, r3) =>
            if 0xD800 ≤ n ∧ n < 0xDC00 then
              match r3 with
              | '\\' :: 'u' :: r4 =>
                match parseHex4 r4 with
                | some (m, r5) =>
                  if 0xDC00 ≤ m ∧ m < 0xE000 then
                    parseStringBody fuel r5
                      (Char.ofNat (0x10000 + (n - 0xD800) * 0x400 + (m - 0xDC00)) :: acc)
                  else parseStringBody fuel r3 (Char.ofNat n :: acc)
                | none => parseStringBody fuel r3 (Char.ofNat n :: acc)
              | _ => parseStringBody fuel r3 (Char.ofNat n :: acc)
            else parseStringBody fuel r3 (Char.ofNat n :: acc)
        else .error (.jsonDecodeError "Invalid escape")
    | c :: rest =>
      if c.toNat < 0x20 then .error (.jsonDecodeError "Invalid control character")
      else parseStringBody fuel rest (c :: acc)

/-- Optional fraction part `(\.\d+)?` of the number regex; returns the matched
lexeme and the remainder (no match leaves the input untouched). -/
def numFrac (cs : List Char) : List Char × List Char :=
  match cs with
  | '.' :: r =>
    let ds := r.takeWhile Char.isDigit
    if ds.isEmpty then ([], cs) else ('.' :: ds, r.drop ds.length)
  | _ => ([], cs)

/-- Optional exponent part `([eE][-+]?\d+)?` of the number regex. -/
def numExp (cs : List Char) : List Char × List Char :=
  match cs with
  | e :: r =>
    if e == 'e' || e == 'E' then
      let (sg, r2) :=
        match r with
        | c :: rr => if c == '+' || c == '-' then ([c], rr) else (([] : List Char), r)
        | [] => (([] : List Char), r)
      let ds := r2.takeWhile Char.isDigit
      if ds.isEmpty then ([], cs) else (e :: (sg ++ ds), r2.drop ds.length)
    else ([], cs)
  | [] => ([], cs)

/-- The decoder number token `(-?(?:0|[1-9]\d*))(\.\d+)?([eE][-+]?\d+)?`,
kept as its lexeme. -/
def parseNumber (cs : List Char) : Except PyErr (Json × List Char) :=
  let (sign, r1) :=
    match cs with
    | '-' :: r => ((['-'] : List Char), r)
    | _ => (([] : List Char), cs)
  match r1 with
  | '0' :: r2 =>
    let (fr, r3) := numFrac r2
    let (ex, r4) := numExp r3
    .ok (.num (String.mk (sign ++ ['0'] ++ fr ++ ex)), r4)
  | c :: _ =>
    if '1' ≤ c ∧ c ≤ '9' then
      let ds := r1.takeWhile Char.isDigit
      let (fr, r3) := numFrac (r1.drop ds.length)
      let (ex, r4) := numExp r3
      .ok (.num (String.mk (sign ++ ds ++ fr ++ ex)), r4)
    else .error (.jsonDecodeError "Expecting value")
  | [] => .error (.jsonDecodeError "Expecting value")

/-- Duplicate object keys: assignment into the Python dict keeps the original
position of an existing key and overwrites its value, otherwise appends. -/
def objUpdate (acc : List (String × Json)) (k : String) (v : Json) :
    List (String × Json) :=
  if acc.any (fun p => p.1 == k) then
    acc.map fun p => if p.1 == k then (k, v) else p
  else acc ++ [(k, v)]

mutual

/-- One JSON value, input already whitespace-stripped at the front.  The
first argument is the remaining recursion depth: entering a nested container
checks it (`Py_EnterRecursiveCall`) and raises `RecursionError` when it is
exhausted; scalars do not recurse.  The second argument is a structural
termination fuel that exceeds what any run can consume. -/
def parseValue : Nat → Nat → List Char → Except PyErr (Json × List Char)
  | _, 0, _ => .error (.recursionError "model fuel exhausted")
  | depth, fuel + 1, cs =>
    match cs with
    | '{' :: rest =>
      match depth with
      | 0 =>
        .error (.recursionError
          "maximum recursion depth exceeded while decoding a JSON object")
      | d + 1 =>
        match skipWs rest with
        | '}' :: r2 => .ok (.obj [], r2)
        | r1 => parseMembers d fuel [] r1
    | '[' :: rest =>
      match depth with
      | 0 =>
        .error (.recursionError
          "maximum recursion depth exceeded while decoding a JSON array")
      | d + 1 =>
        match skipWs rest with
        | ']' :: r2 => .ok (.arr [], r2)
        | r1 => parseElements d fuel [] r1
    | '"' :: rest =>
      match parseStringBody (rest.length + 1) rest [] with
      | .error e => .error e
      | .ok (s, r) => .ok (.str s, r)
    | 't' :: 'r' :: 'u' :: 'e' :: rest => .ok (.bool true, rest)
    | 'f' :: 'a' :: 'l' :: 's' :: 'e' :: rest => .ok (.bool false, rest)
    | 'n' :: 'u' :: 'l' :: 'l' :: rest => .ok (.null, rest)
    | 'N' :: 'a' :: 'N' :: rest => .ok (.num "NaN", rest)
    | 'I' :: 'n' :: 'f' :: 'i' :: 'n' :: 'i' :: 't' :: 'y' :: rest =>
      .ok (.num "Infinity", rest)
    | '-' :: 'I' :: 'n' :: 'f' :: 'i' :: 'n' :: 'i' :: 't' :: 'y' :: rest =>
      .ok (.num "-Infinity", rest)
    | c :: _ =>
      if c == '-' || c.isDigit then parseNumber cs
      else .error (.jsonDecodeError "Expecting value")
    | [] => .error (.jsonDecodeError "Expecting value")

/-- Object members, input at the (expected) opening quote of the next key.
The member loop is iterative in CPython, so it keeps the depth it was given;
only nested values recurse into `parseValue`. -/
def parseMembers : Nat → Nat → List (String × Json) → List Char →
    Except PyErr (Json × List Char)
  | _, 0, _, _ => .error (.recursionError "model fuel exhausted")
  | depth, fuel + 1, acc, cs =>
    match cs with
    | '"' :: rest =>
      match parseStringBody (rest.length + 1) rest [] with
      | .error e => .error e
      | .ok (key, r2) =>
        match skipWs r2 with
        | ':' :: r4 =>
          match parseValue depth fuel (skipWs r4) with
          | .error e => .error e
          | .ok (v, r6) =>
            match skipWs r6 with
            | ',' :: r8 => parseMembers depth fuel (objUpdate acc key v) (skipWs r8)
            | '}' :: r8 => .ok (.obj (objUpdate acc key v), r8)
            | _ => .error (.jsonDecodeError "Expecting comma delimiter")
        | _ => .error (.jsonDecodeError "Expecting colon delimiter")
    | _ => .error (.jsonDecodeError "Expecting property name enclosed in double quotes")

/-- Array elements, input at the start of the next value; iterative, like the
member loop. -/
def parseElements : Nat → Nat → List Json → List Char →
    Except PyErr (Json × List Char)
  | _, 0, _, _ => .error (.recursionError "model fuel exhausted")
  | depth, fuel + 1, acc, cs =>
    match parseValue depth fuel cs with
    | .error e => .error e
    | .ok (v, r) =>
      match skipWs r with
      | ',' :: r2 => parseElements depth fuel (acc ++ [v]) (skipWs r2)
      | ']' :: r2 => .ok (.arr (acc ++ [v]), r2)
      | _ => .error (.jsonDecodeError "Expecting comma delimiter")

end

/-- `json.loads`: whitespace, one value, whitespace, then end of input
(anything left over raises `Extra data`).  Container nesting is counted
against the interpreter recursion limit. -/
def jsonLoads (s : String) : Except PyErr Json :=
  match parseValue pyRecursionLimit (2 * s.length + 2) (skipWs s.data) with
  | .error e => .error e
  | .ok (v, rest) =>
    if (skipWs rest).isEmpty then .ok v
    else .error (.jsonDecodeError "Extra data")

/-! ## `extract_json` (run_newsletter_auto.py)

```
def extract_json(text):
    try:
        match = re.search(r'\x7b.*\x7d', text, re.DOTALL)
        if match:
            return json.loads(match.group())
        return None
    except json.JSONDecodeError:
        return None
```
-/

/-- The body of `extract_json` before its `try` handler is applied: the
only fallible operation is the `json.loads` call. -/
def extractJsonBody (text : String) : Except PyErr (Option Json) :=
  match extractSpan text.data with
  | none => .ok none
  | some span => (jsonLoads (String.mk span)).map some

/-- `extract_json` with its `except json.JSONDecodeError: return None`
handler: that clause absorbs only `JSONDecodeError`; a `RecursionError`
raised by `json.loads` on deeply nested input passes through to the caller. -/
def pyExtractJson (text : String) : Except PyErr (Option Json) :=
  match extractJsonBody text with
  | .ok v => .ok v
  | .error (.jsonDecodeError _) => .ok none
  | .error e => .error e

/-- The value `extract_json` hands back to its caller on the paths where it
returns (the `RecursionError` path returns nothing — see `pyExtractJson`). -/
def extract_json (text : String) : Option Json :=
  match extractSpan text.data with
  | none => none
  | some span =>
    match jsonLoads (String.mk span) with
    | .ok v => some v
    | .error _ => none

/-- A response whose span is syntactically fine to start but nests 1101
containers: both CPython (ambient-adjusted limit ≲ 1000) and the model
(limit exactly 1000) make `json.loads` raise `RecursionError` on it. -/
def deepNestedResponse : String :=
  String.mk ('{' :: '"' :: 'a' :: '"' :: ':' :: (List.replicate 1100 '[' ++ ['}']))

/-! ## Python dicts of JSON values

A Python dict is modelled as an association list looked up right-to-left
(last binding wins), which gives `\x7b**a, **b\x7d` the lookup semantics of
plain list append. -/

/-- Association-list model of a Python dict holding JSON values. -/
abbrev PyDict := List (String × Json)

/-- `d[k]` / `d.get(k)`: the value of the last binding of `k`. -/
def dictGet (d : PyDict) (k : String) : Option Json :=
  (d.reverse.find? fun p => p.1 == k).map (·.2)

/-- `\x7b**a, **b\x7d`: keys of `b` override keys of `a`. -/
def mergeDicts (a b : PyDict) : PyDict :=
  a ++ b

/-! ## `analyze_news_with_gemini` (run_newsletter_auto.py)

The item as the function reads it: `item['title']` and `item['source']` are
direct subscripts (always present for pipeline items), `item.get('snippet', …)`
tolerates an absent key, hence `Option`. -/

structure AnalyzeItem where
  title : String
  source : String
  snippet : Option String

/-- The five enrichment field names. -/
def enrichmentFields : List String :=
  ["summary", "detail", "reasoning", "sales_talk", "sales_hint"]

/-- The early-return dict when no model is configured (no credential):
a pure function of the item, no network call is reachable on this path. -/
def noModelDict (item : AnalyzeItem) : PyDict :=
  [("summary", .str ((item.snippet.getD "").take 80 ++ "...")),
   ("detail", .str (item.snippet.getD "詳細なし")),
   ("reasoning", .str "（AI未接続）"),
   ("sales_talk", .str (item.title ++ "について顧客と話をしてみましょう。")),
   ("sales_hint", .str "業界動向としての紹介が有効です。")]

/-- `fallback_data`: the complete default field set merged under the parsed
fields. -/
def fallback_data (item : AnalyzeItem) : PyDict :=
  [("summary", .str item.title),
   ("detail", .str (item.snippet.getD "詳細生成失敗")),
   ("reasoning", .str "詳細情報を確認してください。"),
   ("sales_talk", .str "話題のきっかけとして活用可能です。"),
   ("sales_hint", .str "顧客へ情報提供を行ってください。")]

/-- The dict returned by the outer `except Exception` handler. -/
def errorDict (item : AnalyzeItem) (e : String) : PyDict :=
  [("summary", .str item.title),
   ("detail", .str ("AI生成エラー: " ++ e)),
   ("reasoning", .str "エラー"),
   ("sales_talk", .str "ー"),
   ("sales_hint", .str "ー")]

/-- Python truthiness of a decoded JSON value (`if not parsed:`).  A numeric
lexeme is truthy iff it denotes a nonzero float; lexemes whose nonzero digits
all underflow to zero (exponents below about -323) are not modelled — no such
value reaches this test, since `extract_json` only ever returns objects. -/
def jsonTruthy : Json → Bool
  | .null => false
  | .bool b => b
  | .str s => s != ""
  | .num lexeme => lexeme.data.any fun c => '1' ≤ c && c ≤ '9'
  | .arr l => !l.isEmpty
  | .obj l => !l.isEmpty

/-- The five salvage regexes of the fallback parser, keyed by field, exactly
as written in the source (`re.DOTALL | re.IGNORECASE`). -/
def salvagePatterns : List (String × String) :=
  [("summary", "(?:summary|要約)[:：\"\\s]+(.*?)(?=\",|\\n)"),
   ("detail", "(?:detail|詳細)[:：\"\\s]+(.*?)(?=\",|\\n)"),
   ("reasoning", "(?:reasoning|選定理由)[:：\"\\s]+(.*?)(?=\",|\\n)"),
   ("sales_talk", "(?:sales_talk|商談トーク)[:：\"\\s]+(.*?)(?=\",|\\n)"),
   ("sales_hint", "(?:sales_hint|営業ヒント)[:：\"\\s]+(.*?)(?=\",|\\n|\"\\\x7d\\s*$)")]

/-- `s.strip(chars)` for a character class. -/
def pyStrip (p : Char → Bool) (s : String) : String :=
  String.mk (((s.data.dropWhile p).reverse.dropWhile p).reverse)

/-- `match.group(1).strip().strip(chr(34)).strip(",")`.  `Char.isWhitespace`
covers the ASCII whitespace of `str.strip()` but not the full Unicode set
(e.g. U+3000); no settled claim depends on the salvage branch. -/
def salvageClean (g : String) : String :=
  pyStrip (fun c => c == ',') (pyStrip (fun c => c == '"') (pyStrip Char.isWhitespace g))

/-- The regex-salvage stage.  `re.search` itself is the external `re` library:
it is passed in as a total function `matcher pattern text = group(1)` of the
first match (or `none`); every operation of the stage is total, so the stage
cannot raise. -/
def salvageFields (matcher : String → String → Option String) (text : String) :
    PyDict :=
  salvagePatterns.foldl
    (fun acc kp =>
      match matcher kp.2 text with
      | some g => acc ++ [(kp.1, Json.str (salvageClean g))]
      | none => acc)
    []

/-- `analyze_news_with_gemini`.  `model = none` models the missing-credential
case (`configure_gemini` returned `None`); `some response` models a configured
model whose `generate_content` call either raises (`Except.error`, absorbed by
the outer `except Exception` handler) or returns the response text.  An
exception escaping `extract_json` (the `RecursionError` path of
`pyExtractJson`) is likewise absorbed by that outer handler, which builds the
error dict from `str(e)`. -/
def analyze_news_with_gemini (matcher : String → String → Option String)
    (item : AnalyzeItem) (model : Option (Except String String)) : PyDict :=
  match model with
  | none => noModelDict item
  | some (.error e) => errorDict item e
  | some (.ok text) =>
    match pyExtractJson text with
    | .error (.jsonDecodeError msg) => errorDict item msg
    | .error (.recursionError msg) => errorDict item msg
    | .ok (some j) =>
      if jsonTruthy j then
        match j with
        | .obj kvs => mergeDicts (fallback_data item) kvs
        | _ =>
          -- \x7b**fallback_data, **parsed\x7d with a non-mapping raises
          -- `TypeError`, absorbed by the outer `except Exception` handler.
          errorDict item "TypeError"
      else mergeDicts (fallback_data item) (salvageFields matcher text)
    | .ok none => mergeDicts (fallback_data item) (salvageFields matcher text)

/-! ## `difflib.SequenceMatcher` (used by `is_similar` in content_fetcher.py)

`SequenceMatcher(None, a, b).ratio()` with `isjunk=None` (so the junk set is
empty and the junk extension loops of `find_longest_match` never fire) and the
default `autojunk=True` (elements of `b` are dropped from the index when
`len(b) >= 200` and they occur more than `len(b)//100 + 1` times).

Out-of-range sequence accesses never occur on the reachable arguments; the
model uses two distinct sentinel characters so that an out-of-range access on
`a` can never spuriously equal one on `b`. -/

/-- Sentinel for reads from `a` (never compared equal to `sentB`). -/
def sentA : Char := '\x00'

/-- Sentinel for reads from `b`. -/
def sentB : Char := '\x01'

/-- `b2j` with junk (none) and autojunk-popular elements removed: the indices
at which a character occurs in `b`, in increasing order, or `[]` for a
popular character of a long `b`. -/
def b2j (b : List Char) (c : Char) : List Nat :=
  let idxs := (List.range b.length).filter fun j => b.getD j sentB == c
  if 200 ≤ b.length ∧ b.length / 100 + 1 < idxs.length then [] else idxs

/-- A matching block `a[besti:besti+size] == b[bestj:bestj+size]`. -/
structure MatchBlock where
  besti : Nat
  bestj : Nat
  size : Nat

/-- The dynamic-programming rows of `find_longest_match`: for each `i`,
`newj2len[j] = j2len.get(j-1, 0) + 1` over the (already range-filtered,
increasing) index list `b2j[a[i]]`, tracking the first longest block. -/
def flmRows (a : List Char) (bj : Char → List Nat) (alo ahi blo bhi : Nat) :
    MatchBlock :=
  ((List.range' alo (ahi - alo)).foldl
    (fun (acc : MatchBlock × (Nat → Nat)) i =>
      let js := (bj (a.getD i sentA)).filter fun j => blo ≤ j && j < bhi
      js.foldl
        (fun (p : MatchBlock × (Nat → Nat)) j =>
          let k := (match j with | 0 => 0 | Nat.succ j' => acc.2 j') + 1
          let best := if p.1.size < k then MatchBlock.mk (i + 1 - k) (j + 1 - k) k else p.1
          (best, fun x => if x = j then k else p.2 x))
        (acc.1, fun _ => 0))
    (⟨alo, blo, 0⟩, fun _ => 0)).1

/-- The first extension loop: grow the block leftwards over equal
(non-junk — the junk set is empty) characters. -/
def extendFront (a b : List Char) (alo blo : Nat) :
    Nat → MatchBlock → MatchBlock
  | 0, m => m
  | fuel + 1, m =>
    if alo < m.besti ∧ blo < m.bestj ∧
        a.getD (m.besti - 1) sentA = b.getD (m.bestj - 1) sentB then
      extendFront a b alo blo fuel ⟨m.besti - 1, m.bestj - 1, m.size + 1⟩
    else m

/-- The second extension loop: grow the block rightwards. -/
def extendBack (a b : List Char) (ahi bhi : Nat) :
    Nat → MatchBlock → MatchBlock
  | 0, m => m
  | fuel + 1, m =>
    if m.besti + m.size < ahi ∧ m.bestj + m.size < bhi ∧
        a.getD (m.besti + m.size) sentA = b.getD (m.bestj + m.size) sentB then
      extendBack a b ahi bhi fuel ⟨m.besti, m.bestj, m.size + 1⟩
    else m

/-- `find_longest_match(alo, ahi, blo, bhi)`.  The two junk extension loops
are omitted: with `isjunk=None` the junk set is empty, so they never move. -/
def findLongestMatch (a b : List Char) (bj : Char → List Nat)
    (alo ahi blo bhi : Nat) : MatchBlock :=
  let m := flmRows a bj alo ahi blo bhi
  let m := extendFront a b alo blo m.besti m
  extendBack a b ahi bhi ahi m

/-- Total size of the `get_matching_blocks()` blocks: the divide-and-conquer
recursion around each longest match.  The fuel passed by `ratio` exceeds the
recursion depth, which is bounded by the `a`-range length. -/
def matchingSum (a b : List Char) (bj : Char → List Nat) :
    Nat → Nat → Nat → Nat → Nat → Nat
  | 0, _, _, _, _ => 0
  | fuel + 1, alo, ahi, blo, bhi =>
    let m := findLongestMatch a b bj alo ahi blo bhi
    if m.size = 0 then 0
    else
      (if alo < m.besti ∧ blo < m.bestj then
        matchingSum a b bj fuel alo m.besti blo m.bestj else 0)
      + m.size
      + (if m.besti + m.size < ahi ∧ m.bestj + m.size < bhi then
        matchingSum a b bj fuel (m.besti + m.size) ahi (m.bestj + m.size) bhi else 0)

/-- `SequenceMatcher(None, a, b).ratio() = 2.0 * M / T`, as an exact
rational (`T = 0` gives `1.0`). -/
def ratio (sa sb : String) : Rat :=
  let a := sa.data
  let b := sb.data
  let total := a.length + b.length
  if total = 0 then 1
  else mkRat (2 * (matchingSum a b (b2j b) (total + 1) 0 a.length 0 b.length) : Nat) total

/-- `is_similar(a, b, threshold=0.6)`: the float literal `0.6` and the float
ratio are compared as exact rationals (they agree for every realizable title
length). -/
def is_similar (a b : String) (threshold : Rat := mkRat 3 5) : Bool :=
  threshold < ratio a b

/-! ## `fetch_news` (content_fetcher.py)

The external pieces are parameters: `DateLib` bundles `dateutil.parser.parse`
(fuzzy; `none` = raised parse error; the returned instant is the one obtained
after `replace(tzinfo=None)`) with `strftime`-formatting, and the provider is
a per-keyword call that either raises or returns its full hit list (`ddgs.news`
and the per-hit loop sit inside one `try`, so a raised call contributes
nothing for that keyword). -/

structure DateLib where
  parse : String → Option Int
  fmt : Int → String

/-- A raw provider hit (`item['title']`, `item['url']`, `item['source']`,
`item['date']`, `item['body']`). -/
structure RawHit where
  title : String
  url : String
  source : String
  date : String
  body : String

/-- The dict appended to `category_items` (the sort-only `date_obj` key is
not modelled; no claim reads it). -/
structure NewsItem where
  title : String
  url : String
  source : String
  formatted_date : String
  snippet : String

/-- `is_in_date_range(date_str)` as closed over `target_date_start` /
`target_date_end` (datetimes are always truthy, so `if target_date_start and …`
tests presence). -/
def is_in_date_range (parse : String → Option Int) (ds de : Option Int)
    (dateStr : String) : Bool :=
  if dateStr = "" then false
  else
    match parse dateStr with
    | none => false
    | some dt =>
      if (match ds with | some st => decide (dt < st) | none => false) then false
      else if (match de with | some en => decide (en < dt) | none => false) then false
      else true

/-- Gate 1: `if excluded_terms and any(term in title for term (of) excluded_terms)`. -/
def exclDrop (excluded : List String) (title : String) : Bool :=
  !excluded.isEmpty && excluded.any fun t => pyIn t title

/-- Gate 2: `if (target_date_start or target_date_end) and not is_in_date_range(...)`. -/
def dateDrop (parse : String → Option Int) (ds de : Option Int)
    (dateStr : String) : Bool :=
  (ds.isSome || de.isSome) && !is_in_date_range parse ds de dateStr

/-- Gate 3: `if any(is_similar(title, seen) for seen (of) seen_titles)`. -/
def dupDrop (seen : List String) (title : String) : Bool :=
  seen.any fun s => is_similar title s

/-- The dict built for an accepted hit (`formatted_date` falls back to the
raw date string when the second fuzzy parse raises). -/
def mkNewsItem (lib : DateLib) (h : RawHit) : NewsItem :=
  { title := h.title
    url := h.url
    source := h.source
    formatted_date :=
      match lib.parse h.date with
      | some dt => lib.fmt dt
      | none => h.date
    snippet := h.body }

/-- The mutable state of one `fetch_news` run: the shared `seen_titles`, the
current category accumulator `category_items`, and the `time.sleep` backoffs
taken so far (their argument in seconds, in order). -/
structure FetchState where
  seen : List String
  items : List NewsItem
  sleeps : List Nat

/-- The body of `for item in news_items`: the three gates in source order,
then acceptance (title recorded verbatim, item dict appended). -/
def stepHit (lib : DateLib) (excluded : List String) (ds de : Option Int)
    (st : FetchState) (h : RawHit) : FetchState :=
  if exclDrop excluded h.title then st
  else if dateDrop lib.parse ds de h.date then st
  else if dupDrop st.seen h.title then st
  else
    { st with
      seen := st.seen ++ [h.title]
      items := st.items ++ [mkNewsItem lib h] }

/-- The body of `for keyword in keywords`: the provider call and hit loop in
one `try`; a raised call is logged, `time.sleep(2)` is taken, and the loop
continues. -/
def stepKeyword (lib : DateLib) (excluded : List String) (ds de : Option Int)
    (provider : String → Except String (List RawHit))
    (st : FetchState) (kw : String) : FetchState :=
  match provider kw with
  | .error _ => { st with sleeps := st.sleeps ++ [2] }
  | .ok hits => hits.foldl (stepHit lib excluded ds de) st

def runKeywords (lib : DateLib) (excluded : List String) (ds de : Option Int)
    (provider : String → Except String (List RawHit))
    (st : FetchState) (kws : List String) : FetchState :=
  kws.foldl (stepKeyword lib excluded ds de provider) st

/-- One category of the outer loop: `category_items` starts empty, the shared
`seen_titles` (and sleep log) carry over. -/
def stepCategory (lib : DateLib) (excluded : List String) (ds de : Option Int)
    (provider : String → Except String (List RawHit))
    (acc : List (String × List NewsItem) × FetchState)
    (cat : String × List String) :
    List (String × List NewsItem) × FetchState :=
  let st1 := runKeywords lib excluded ds de provider
    { seen := acc.2.seen, items := [], sleeps := acc.2.sleeps } cat.2
  (acc.1 ++ [(cat.1, st1.items)], st1)

/-- `fetch_news` from an explicit starting state (categories in `topics`
order). -/
def fetchNewsFrom (lib : DateLib) (excluded : List String) (ds de : Option Int)
    (provider : String → Except String (List RawHit))
    (acc : List (String × List NewsItem) × FetchState)
    (topics : List (String × List String)) :
    List (String × List NewsItem) × FetchState :=
  topics.foldl (stepCategory lib excluded ds de provider) acc

/-- `fetch_news`: `seen_titles = []` at run start. -/
def fetch_news (lib : DateLib) (excluded : List String) (ds de : Option Int)
    (provider : String → Except String (List RawHit))
    (topics : List (String × List String)) :
    List (String × List NewsItem) × FetchState :=
  fetchNewsFrom lib excluded ds de provider ([], ⟨[], [], []⟩) topics

/-! ## Model selection (`configure_gemini`, run_newsletter_auto.py) -/

/-- The descending priority list of known-good variants. -/
def priority_list : List String :=
  ["gemini-2.0-pro-exp", "gemini-2.0-flash-exp",
   "gemini-1.5-pro-latest", "gemini-1.5-pro",
   "gemini-1.5-flash-latest", "gemini-1.5-flash",
   "gemini-pro"]

/-- The cascade over the discovered `available_models`: first priority hit,
else first variant whose name contains `"gemini"`, else the first variant,
else `None`. -/
def selectModel (available : List String) : Option String :=
  match priority_list.find? fun c => available.contains c with
  | some c => some c
  | none =>
    match available.find? fun m => pyIn "gemini" m with
    | some m => some m
    | none => available.head?

/-- `configure_gemini` after a key is present: a raised discovery
(`genai.list_models()`) falls back to the hardcoded `"gemini-pro"`. -/
def configureSelection (discovery : Except String (List String)) : Option String :=
  match discovery with
  | .error _ => some "gemini-pro"
  | .ok available => selectModel available

/-! ## The per-category enrichment loop of `main` (run_newsletter_auto.py)

```
for item in items[:5]:
    analysis = analyze_news_with_gemini(model, item, category)
    item.update(analysis)
    processed_items.append(item)
```
`item.update(analysis)` is modelled by pairing the item with its analysis
dict. -/

def processCategoryItems (enrich : NewsItem → PyDict) (items : List NewsItem) :
    List (NewsItem × PyDict) :=
  (items.take 5).map fun it => (it, enrich it)

/-! # Lemmas -/

theorem listIn_iff (needle hay : List Char) :
    listIn needle hay = true ↔ ∃ l r, hay = l ++ needle ++ r := by
  unfold listIn
  rw [List.any_eq_true]
  constructor
  · rintro ⟨i, _, hi⟩
    rw [beq_iff_eq] at hi
    refine ⟨hay.take i, hay.drop (i + needle.length), ?_⟩
    have h1 : hay = hay.take i ++ hay.drop i := (List.take_append_drop i hay).symm
    have h2 : hay.drop i = (hay.drop i).take needle.length ++ (hay.drop i).drop needle.length := by
      exact (List.take_append_drop needle.length (hay.drop i)).symm
    rw [List.drop_drop] at h2
    calc hay = hay.take i ++ hay.drop i := h1
      _ = hay.take i ++ ((hay.drop i).take needle.length ++ hay.drop (i + needle.length)) := by
            rw [← h2]
      _ = hay.take i ++ needle ++ hay.drop (i + needle.length) := by
            rw [hi, List.append_assoc]
  · rintro ⟨l, r, rfl⟩
    refine ⟨l.length, ?_, ?_⟩
    · simp [List.mem_range]
      omega
    · rw [beq_iff_eq, List.append_assoc, List.drop_left, List.take_left]

/-- String-level reading of `pyIn`. -/
theorem pyIn_iff (needle hay : String) :
    pyIn needle hay = true ↔ ∃ l r, hay.data = l ++ needle.data ++ r :=
  listIn_iff needle.data hay.data

theorem dropWhile_append_of_forall {α : Type} (p : α → Bool) (l1 l2 : List α)
    (h : ∀ a ∈ l1, p a = true) :
    (l1 ++ l2).dropWhile p = l2.dropWhile p := by
  induction l1 with
  | nil => rfl
  | cons a l ih =>
    have ha : p a = true := h a (by simp)
    simp only [List.cons_append, List.dropWhile_cons, ha, if_true]
    exact ih fun x hx => h x (by simp [hx])

theorem dropWhile_append_of_ne_nil {α : Type} (p : α → Bool) (l1 l2 : List α)
    (h : l1.dropWhile p ≠ []) :
    (l1 ++ l2).dropWhile p = l1.dropWhile p ++ l2 := by
  induction l1 with
  | nil => simp at h
  | cons a l ih =>
    by_cases ha : p a = true
    · simp only [List.cons_append, List.dropWhile_cons, ha, if_true] at h ⊢
      exact ih h
    · rw [Bool.not_eq_true] at ha
      simp only [List.cons_append, List.dropWhile_cons, ha]
      simp

/-- Wrapping text in brace-free prefix/suffix (such as markdown code fences)
does not change the span the greedy regex extracts. -/
theorem extractSpan_wrap (p s t : List Char)
    (hp : ∀ c ∈ p, c ≠ '{' ∧ c ≠ '}')
    (hs : ∀ c ∈ s, c ≠ '{' ∧ c ≠ '}') :
    extractSpan (p ++ t ++ s) = extractSpan t := by
  unfold extractSpan
  have hp1 : ∀ c ∈ p, (c != '{') = true := by
    intro c hc; simpa using (hp c hc).1
  have hstep : (p ++ t ++ s).dropWhile (fun c => c != '{') =
      (t ++ s).dropWhile (fun c => c != '{') := by
    rw [List.append_assoc]
    exact dropWhile_append_of_forall _ p (t ++ s) hp1
  by_cases hd : t.dropWhile (fun c => c != '{') = []
  · -- no `{` anywhere in `t`: both sides find no match
    have hts : (t ++ s).dropWhile (fun c => c != '{') = [] := by
      have hall : ∀ c ∈ t, (c != '{') = true := List.dropWhile_eq_nil_iff.mp hd
      rw [dropWhile_append_of_forall _ t s hall]
      exact List.dropWhile_eq_nil_iff.mpr fun c hc => by simpa using (hs c hc).1
    rw [hstep, hts, hd]
  · have hts : (t ++ s).dropWhile (fun c => c != '{') =
        t.dropWhile (fun c => c != '{') ++ s := dropWhile_append_of_ne_nil _ t s hd
    rw [hstep, hts]
    set d := t.dropWhile fun c => c != '{' with hdDef
    have hcont : (d ++ s).contains '}' = d.contains '}' := by
      by_cases hc : d.contains '}' = true
      · rw [hc]
        rw [List.contains_eq_any_beq] at hc ⊢
        rw [List.any_append, hc, Bool.true_or]
      · rw [Bool.not_eq_true] at hc
        rw [hc]
        rw [List.contains_eq_any_beq] at hc ⊢
        rw [List.any_append, hc, Bool.false_or, List.any_eq_false]
        intro c hcs
        simpa using (hs c hcs).2.symm
    rw [hcont]
    by_cases hc : d.contains '}' = true
    · simp only [hc, if_true]
      have hrev : (d ++ s).reverse.dropWhile (fun c => c != '}') =
          d.reverse.dropWhile (fun c => c != '}') := by
        rw [List.reverse_append]
        exact dropWhile_append_of_forall _ s.reverse d.reverse fun c hcs => by
          simpa using (hs c (by simpa using hcs)).2
      rw [hrev]
    · rw [Bool.not_eq_true] at hc
      simp only [hc]
      simp

theorem dictGet_append (a b : PyDict) (k : String) :
    dictGet (a ++ b) k = (dictGet b k).or (dictGet a k) := by
  unfold dictGet
  rw [List.reverse_append, List.find?_append]
  cases b.reverse.find? fun p => p.1 == k <;> rfl

/-! # Claims -/

/-- C10: per category, `main` enriches `items[:5]` only: the final output list
for a category holds at most 5 entries, exactly the first `min 5 n` fetched
items in arrival order, and items beyond the fifth are absent from the output
entirely. -/
theorem per_category_output_first_five (enrich : NewsItem → PyDict)
    (items : List NewsItem) :
    (processCategoryItems enrich items).length = min 5 items.length ∧
    (processCategoryItems enrich items).length ≤ 5 ∧
    (processCategoryItems enrich items).map (·.1) = items.take 5 := by
  refine ⟨?_, ?_, ?_⟩
  · simp [processCategoryItems]
  · simp [processCategoryItems]
  · show ((items.take 5).map fun it => (it, enrich it)).map (·.1) = items.take 5
    rw [List.map_map]
    have hcomp : ((·.1) ∘ fun it : NewsItem => (it, enrich it)) = id := rfl
    rw [hcomp, List.map_id]

/-- C8: the model-selection cascade of `configure_gemini`: the first
priority-list entry among the available variants wins; failing that, the
first available variant containing `"gemini"`; failing that, the first
available variant; a raised discovery falls back to the hardcoded
`"gemini-pro"`.  On `["gemini-pro", "gemini-1.5-flash"]` the cascade picks
`"gemini-1.5-flash"`. -/
theorem model_selection_cascade :
    (∀ available c, priority_list.find? (fun x => available.contains x) = some c →
      selectModel available = some c) ∧
    (∀ available m, priority_list.find? (fun x => available.contains x) = none →
      available.find? (fun x => pyIn "gemini" x) = some m →
      selectModel available = some m) ∧
    (∀ available, priority_list.find? (fun x => available.contains x) = none →
      available.find? (fun x => pyIn "gemini" x) = none →
      selectModel available = available.head?) ∧
    (∀ e, configureSelection (.error e) = some "gemini-pro") ∧
    selectModel ["gemini-pro", "gemini-1.5-flash"] = some "gemini-1.5-flash" := by
  refine ⟨?_, ?_, ?_, fun _ => rfl, by decide⟩
  · intro available c h
    unfold selectModel
    rw [h]
  · intro available m h1 h2
    unfold selectModel
    rw [h1, h2]
  · intro available h1 h2
    unfold selectModel
    rw [h1, h2]

/-- Witness for C8 at the concrete available-variant list of the claim. -/
theorem model_selection_cascade_witness :
    selectModel ["gemini-pro", "gemini-1.5-flash"] = some "gemini-1.5-flash" ∧
    configureSelection (.error "listing failed") = some "gemini-pro" :=
  ⟨model_selection_cascade.1 ["gemini-pro", "gemini-1.5-flash"] "gemini-1.5-flash"
      (by decide),
   model_selection_cascade.2.2.2.1 "listing failed"⟩

/-- C6 (amended): no `json.JSONDecodeError` ever escapes the response parser —
the handler of `extract_json` absorbs every decode failure, and on every
non-raising path the caller receives the plain value `extract_json text`
(`none` on unrecoverable input; the regex-salvage stage is built from total
operations only).  The one exception that can escape is the `RecursionError`
that `json.loads` raises on input nested beyond the interpreter recursion
limit, which `except json.JSONDecodeError` does not catch. -/
theorem response_parser_boundary (text : String) :
    (∀ msg, pyExtractJson text ≠ Except.error (PyErr.jsonDecodeError msg)) ∧
    (pyExtractJson text = Except.ok (extract_json text) ∨
      ∃ msg, pyExtractJson text = Except.error (PyErr.recursionError msg)) := by
  cases hspan : extractSpan text.data with
  | none =>
    constructor
    · intro msg h
      simp [pyExtractJson, extractJsonBody, hspan] at h
    · left
      simp [pyExtractJson, extractJsonBody, extract_json, hspan]
  | some span =>
    cases hj : jsonLoads (String.mk span) with
    | ok v =>
      constructor
      · intro msg h
        simp [pyExtractJson, extractJsonBody, Except.map, hspan, hj] at h
      · left
        simp [pyExtractJson, extractJsonBody, extract_json, Except.map, hspan, hj]
    | error e =>
      cases e with
      | jsonDecodeError m =>
        constructor
        · intro msg h
          simp [pyExtractJson, extractJsonBody, Except.map, hspan, hj] at h
        · left
          simp [pyExtractJson, extractJsonBody, extract_json, Except.map, hspan, hj]
      | recursionError m =>
        constructor
        · intro msg h
          simp [pyExtractJson, extractJsonBody, Except.map, hspan, hj] at h
        · right
          exact ⟨m, by simp [pyExtractJson, extractJsonBody, Except.map, hspan, hj]⟩

/-- Witness for C6 on a concrete response, with the parse evaluated. -/
theorem response_parser_boundary_witness :
    ((∀ msg, pyExtractJson "\x7b\"a\": 1\x7d" ≠
        Except.error (PyErr.jsonDecodeError msg)) ∧
      (pyExtractJson "\x7b\"a\": 1\x7d" =
          Except.ok (extract_json "\x7b\"a\": 1\x7d") ∨
        ∃ msg, pyExtractJson "\x7b\"a\": 1\x7d" =
          Except.error (PyErr.recursionError msg))) ∧
    pyExtractJson "\x7b\"a\": 1\x7d" =
      Except.ok (some (Json.obj [("a", Json.num "1")])) :=
  ⟨response_parser_boundary "\x7b\"a\": 1\x7d", rfl⟩

set_option maxRecDepth 40000 in
/-- Counterexample for C6 as stated: on a response nesting 1101 containers,
`json.loads` raises `RecursionError`, which the
`except json.JSONDecodeError` handler does not catch — `extract_json`
propagates an exception to its caller instead of returning a value. -/
theorem response_parser_boundary_cex :
    pyExtractJson deepNestedResponse =
      Except.error (PyErr.recursionError
        "maximum recursion depth exceeded while decoding a JSON array") ∧
    ¬ ∃ v : Option Json, pyExtractJson deepNestedResponse = Except.ok v := by
  have h : pyExtractJson deepNestedResponse =
      Except.error (PyErr.recursionError
        "maximum recursion depth exceeded while decoding a JSON array") := by
    rfl
  exact ⟨h, fun ⟨v, hv⟩ => by rw [h] at hv; exact Except.noConfusion hv⟩

/-- C7: wrapping a response in brace-free markdown code fences does not change
what `extract_json` returns: the greedy `(...)` span from the first `\x7b` to
the last `\x7d` is unchanged by a brace-free prefix and suffix. -/
theorem fence_wrap_roundtrip (p s t : String)
    (hp : ∀ c ∈ p.data, c ≠ '{' ∧ c ≠ '}')
    (hs : ∀ c ∈ s.data, c ≠ '{' ∧ c ≠ '}') :
    extract_json (p ++ t ++ s) = extract_json t := by
  unfold extract_json
  have hdata : (p ++ t ++ s).data = p.data ++ t.data ++ s.data := by
    cases p
    cases t
    cases s
    rfl
  rw [hdata, extractSpan_wrap p.data s.data t.data hp hs]

/-- Witness for C7: the markdown fences of the spec example. -/
theorem fence_wrap_roundtrip_witness :
    extract_json ("```json\n" ++ "\x7b\"summary\": \"ok\"\x7d" ++ "\n```") =
      extract_json "\x7b\"summary\": \"ok\"\x7d" ∧
    extract_json "\x7b\"summary\": \"ok\"\x7d" =
      some (Json.obj [("summary", Json.str "ok")]) :=
  ⟨fence_wrap_roundtrip "```json\n" "\n```" "\x7b\"summary\": \"ok\"\x7d"
      (by decide) (by decide), rfl⟩

/-- C4: with a non-empty excluded-term list, the exclusion gate drops a hit
iff some term occurs as a case-sensitive contiguous substring of the title
(no case folding, no trimming); a dropped hit leaves the run state untouched. -/
theorem exclusion_filter_substring (excluded : List String) (title : String)
    (hne : excluded ≠ []) :
    (exclDrop excluded title = true ↔
      ∃ t ∈ excluded, ∃ l r, title.data = l ++ t.data ++ r) ∧
    (∀ (lib : DateLib) (ds de : Option Int) (st : FetchState) (h : RawHit),
      h.title = title → exclDrop excluded title = true →
      stepHit lib excluded ds de st h = st) := by
  constructor
  · unfold exclDrop
    rw [Bool.and_eq_true, List.any_eq_true]
    constructor
    · rintro ⟨_, t, ht, hp⟩
      exact ⟨t, ht, (pyIn_iff t title).mp hp⟩
    · rintro ⟨t, ht, hsub⟩
      refine ⟨?_, t, ht, (pyIn_iff t title).mpr hsub⟩
      cases excluded with
      | nil => exact absurd rfl hne
      | cons a l => rfl
  · intro lib ds de st h hT hE
    unfold stepHit
    rw [hT, hE]
    simp

/-- Witness for C4: term `"AI"` drops the title `"AI株式会社"`, and the
case-folded `"ai株式会社"` is not matched. -/
theorem exclusion_filter_substring_witness :
    (exclDrop ["AI"] "AI株式会社" = true ↔
      ∃ t ∈ ["AI"], ∃ l r, ("AI株式会社" : String).data = l ++ t.data ++ r) ∧
    exclDrop ["AI"] "ai株式会社" = false :=
  ⟨(exclusion_filter_substring ["AI"] "AI株式会社" (by decide)).1, by decide⟩

/-- C5 (amended): with no credential (`model = None`) the enrichment step is
the pure early-return dict: deterministic, no network call on its path, all
five fields present as strings; `summary`, `reasoning`, `sales_talk`,
`sales_hint` are always non-empty, while `detail` repeats the snippet
(default `"詳細なし"` when the key is absent) and so is empty exactly when
the item carries an empty snippet. -/
theorem no_credential_placeholder (item : AnalyzeItem)
    (matcher : String → String → Option String) :
    analyze_news_with_gemini matcher item none = noModelDict item ∧
    (∀ f ∈ enrichmentFields, ∃ s : String,
      dictGet (noModelDict item) f = some (Json.str s)) ∧
    (∀ f ∈ ["summary", "reasoning", "sales_talk", "sales_hint"], ∃ s : String,
      dictGet (noModelDict item) f = some (Json.str s) ∧ s ≠ "") ∧
    dictGet (noModelDict item) "detail" = some (Json.str (item.snippet.getD "詳細なし")) := by
  refine ⟨rfl, ?_, ?_, rfl⟩
  · intro f hf
    simp only [enrichmentFields, List.mem_cons, List.mem_singleton] at hf
    rcases hf with rfl | rfl | rfl | rfl | rfl | hf
    · exact ⟨_, rfl⟩
    · exact ⟨_, rfl⟩
    · exact ⟨_, rfl⟩
    · exact ⟨_, rfl⟩
    · exact ⟨_, rfl⟩
    · cases hf
  · intro f hf
    simp only [List.mem_cons, List.mem_singleton] at hf
    have happ : ∀ x y : String, y.length ≠ 0 → x ++ y ≠ "" := by
      intro x y hy hxy
      have hl := congrArg String.length hxy
      rw [String.length_append] at hl
      have h0 : String.length "" = 0 := rfl
      rw [h0] at hl
      omega
    rcases hf with rfl | rfl | rfl | rfl | hf
    · exact ⟨_, rfl, happ _ "..." (by decide)⟩
    · exact ⟨_, rfl, by decide⟩
    · exact ⟨_, rfl, happ _ "について顧客と話をしてみましょう。" (by decide)⟩
    · exact ⟨_, rfl, by decide⟩
    · cases hf

/-- Witness for C5 on a concrete item with a non-empty snippet. -/
theorem no_credential_placeholder_witness :
    analyze_news_with_gemini (fun _ _ => none) ⟨"T", "S", some "text"⟩ none =
      noModelDict ⟨"T", "S", some "text"⟩ ∧
    (∃ s : String, dictGet (noModelDict ⟨"T", "S", some "text"⟩) "summary" =
      some (Json.str s) ∧ s ≠ "") :=
  ⟨(no_credential_placeholder ⟨"T", "S", some "text"⟩ (fun _ _ => none)).1,
   (no_credential_placeholder ⟨"T", "S", some "text"⟩ (fun _ _ => none)).2.2.1
     "summary" (by decide)⟩

/-- Counterexample for C5 as stated: an item whose snippet is the empty
string gets an empty `detail` placeholder, so not all five placeholder
fields are non-empty strings. -/
theorem no_credential_placeholder_cex :
    dictGet (noModelDict ⟨"T", "S", some ""⟩) "detail" = some (Json.str "") ∧
    ¬ ∀ f ∈ enrichmentFields, ∃ s : String,
        dictGet (noModelDict ⟨"T", "S", some ""⟩) f = some (Json.str s) ∧ s ≠ "" := by
  refine ⟨rfl, fun h => ?_⟩
  obtain ⟨s, hs, hne⟩ := h "detail" (by simp [enrichmentFields])
  have hs0 : some (Json.str "") = some (Json.str s) := by
    rw [← hs]
    rfl
  injection hs0 with h1
  injection h1 with h2
  exact hne h2.symm

/-- C1 (amended): for every recovered field mapping, the merge
`\x7b**fallback_data, **parsed\x7d` leaves all five enrichment fields
present; a merged field can only be `null` when the parser itself recovered
an explicit JSON `null` for it — a field the parser did not recover is the
item-derived or static default string. -/
theorem merged_fields_total (item : AnalyzeItem) (parsed : PyDict) (f : String)
    (hf : f ∈ enrichmentFields) :
    ∃ v, dictGet (mergeDicts (fallback_data item) parsed) f = some v ∧
      (v = Json.null → dictGet parsed f = some Json.null) ∧
      (dictGet parsed f = none → ∃ s : String, v = Json.str s) := by
  have hfb : ∃ s : String, dictGet (fallback_data item) f = some (Json.str s) := by
    simp only [enrichmentFields, List.mem_cons, List.mem_singleton] at hf
    rcases hf with rfl | rfl | rfl | rfl | rfl | hf
    · exact ⟨_, rfl⟩
    · exact ⟨_, rfl⟩
    · exact ⟨_, rfl⟩
    · exact ⟨_, rfl⟩
    · exact ⟨_, rfl⟩
    · cases hf
  obtain ⟨s, hs⟩ := hfb
  unfold mergeDicts
  rw [dictGet_append]
  cases hp : dictGet parsed f with
  | some v =>
    exact ⟨v, rfl, fun hv => by rw [hv], fun hc => by cases hc⟩
  | none =>
    rw [hs]
    exact ⟨Json.str s, rfl, fun hv => Json.noConfusion hv, fun _ => ⟨s, rfl⟩⟩

/-- Witness for C1 on a concrete item with an empty recovered mapping. -/
theorem merged_fields_total_witness :
    ∃ v, dictGet (mergeDicts (fallback_data ⟨"T", "S", none⟩) []) "summary" = some v ∧
      (v = Json.null → dictGet ([] : PyDict) "summary" = some Json.null) ∧
      (dictGet ([] : PyDict) "summary" = none → ∃ s : String, v = Json.str s) :=
  merged_fields_total ⟨"T", "S", none⟩ [] "summary" (by decide)

/-- Counterexample for C1 as stated: a response whose JSON object binds
`"summary"` to an explicit `null` flows through the success path of
`analyze_news_with_gemini` and leaves a `null` (not non-null) `summary` in
the merged result. -/
theorem merged_fields_total_cex :
    dictGet
      (analyze_news_with_gemini (fun _ _ => none) ⟨"T", "S", some "snip"⟩
        (some (Except.ok "\x7b\"summary\": null\x7d"))) "summary" = some Json.null ∧
    ¬ ∀ f ∈ enrichmentFields, ∃ v,
        dictGet
          (analyze_news_with_gemini (fun _ _ => none) ⟨"T", "S", some "snip"⟩
            (some (Except.ok "\x7b\"summary\": null\x7d"))) f = some v ∧ v ≠ Json.null := by
  have h1 : dictGet
      (analyze_news_with_gemini (fun _ _ => none) ⟨"T", "S", some "snip"⟩
        (some (Except.ok "\x7b\"summary\": null\x7d"))) "summary" = some Json.null := rfl
  refine ⟨h1, fun h => ?_⟩
  obtain ⟨v, hv, hne⟩ := h "summary" (by simp [enrichmentFields])
  rw [h1] at hv
  injection hv with h2
  exact hne h2.symm

/-- C9: a provider exception while processing one keyword is absorbed by the
keyword loop: that keyword changes neither the accepted titles nor the
category items (zero results), one `time.sleep(2)` backoff is logged, and the
loop goes on with the remaining keywords from exactly that state (categories
around it are unaffected by construction of `fetchNewsFrom`). -/
theorem keyword_error_backoff (lib : DateLib) (excluded : List String)
    (ds de : Option Int) (provider : String → Except String (List RawHit))
    (st : FetchState) (kw : String) (kws : List String) (e : String)
    (herr : provider kw = .error e) :
    stepKeyword lib excluded ds de provider st kw =
      { st with sleeps := st.sleeps ++ [2] } ∧
    runKeywords lib excluded ds de provider st (kw :: kws) =
      runKeywords lib excluded ds de provider
        { st with sleeps := st.sleeps ++ [2] } kws := by
  have h1 : stepKeyword lib excluded ds de provider st kw =
      { st with sleeps := st.sleeps ++ [2] } := by
    unfold stepKeyword
    rw [herr]
  refine ⟨h1, ?_⟩
  unfold runKeywords
  rw [List.foldl_cons, h1]

/-- Witness for C9 with a provider that raises on every keyword. -/
theorem keyword_error_backoff_witness :
    stepKeyword ⟨fun _ => none, fun _ => ""⟩ [] none none
        (fun _ => Except.error "Ratelimit") ⟨[], [], []⟩ "keyword1" =
      ⟨[], [], [2]⟩ ∧
    runKeywords ⟨fun _ => none, fun _ => ""⟩ [] none none
        (fun _ => Except.error "Ratelimit") ⟨[], [], []⟩ ["keyword1", "keyword2"] =
      runKeywords ⟨fun _ => none, fun _ => ""⟩ [] none none
        (fun _ => Except.error "Ratelimit") ⟨[], [], [2]⟩ ["keyword2"] :=
  keyword_error_backoff ⟨fun _ => none, fun _ => ""⟩ [] none none
    (fun _ => Except.error "Ratelimit") ⟨[], [], []⟩ "keyword1" ["keyword2"]
    "Ratelimit" rfl

/-- C2: given a hit that passed the exclusion and date gates, the duplicate
suppressor rejects it (the run state is left unchanged) iff the
`SequenceMatcher` ratio of its title against some previously accepted title
exceeds 0.6; when no prior title exceeds the threshold — equality with 0.6
included — the hit is accepted and its title is appended verbatim to the
shared state (so earlier arrivals win); the state threads across category
boundaries of a run, so titles accepted in one category suppress
near-duplicates in later ones. -/
theorem duplicate_suppressor_threshold (lib : DateLib) (excluded : List String)
    (ds de : Option Int) (st : FetchState) (h : RawHit)
    (hex : exclDrop excluded h.title = false)
    (hdt : dateDrop lib.parse ds de h.date = false) :
    (stepHit lib excluded ds de st h = st ↔
      ∃ s ∈ st.seen, mkRat 3 5 < ratio h.title s) ∧
    ((∀ s ∈ st.seen, ¬ mkRat 3 5 < ratio h.title s) →
      stepHit lib excluded ds de st h =
        { st with seen := st.seen ++ [h.title],
                  items := st.items ++ [mkNewsItem lib h] }) ∧
    (∀ a b : String, ratio a b = mkRat 3 5 → is_similar a b = false) ∧
    (∀ (provider : String → Except String (List RawHit))
        (acc : List (String × List NewsItem) × FetchState)
        (ts us : List (String × List String)),
      fetchNewsFrom lib excluded ds de provider acc (ts ++ us) =
        fetchNewsFrom lib excluded ds de provider
          (fetchNewsFrom lib excluded ds de provider acc ts) us) := by
  have hdup : dupDrop st.seen h.title = true ↔
      ∃ s ∈ st.seen, mkRat 3 5 < ratio h.title s := by
    unfold dupDrop is_similar
    rw [List.any_eq_true]
    simp only [decide_eq_true_eq]
  have hstep : stepHit lib excluded ds de st h =
      if dupDrop st.seen h.title then st
      else { st with seen := st.seen ++ [h.title],
                     items := st.items ++ [mkNewsItem lib h] } := by
    unfold stepHit
    rw [hex, hdt]
    simp
  refine ⟨?_, ?_, ?_, ?_⟩
  · rw [hstep]
    by_cases hd : dupDrop st.seen h.title = true
    · rw [if_pos hd]
      exact ⟨fun _ => hdup.mp hd, fun _ => rfl⟩
    · rw [if_neg hd]
      constructor
      · intro hacc
        have hlen := congrArg (fun x => x.seen.length) hacc
        simp at hlen
      · intro hsim
        exact absurd (hdup.mpr hsim) hd
  · intro hno
    have hd : ¬ dupDrop st.seen h.title = true := by
      rw [hdup]
      push_neg
      exact fun s hs => not_lt.mp (hno s hs)
    rw [hstep, if_neg hd]
  · intro a b hr
    unfold is_similar
    rw [hr]
    exact decide_eq_false (lt_irrefl _)
  · intro provider acc ts us
    unfold fetchNewsFrom
    rw [List.foldl_append]

/-- Witness for C2: ratio("abcx", "abcyyz") is exactly 3/5 = 0.6, so the
boundary title is accepted and recorded; a verbatim duplicate (ratio 1) is
rejected. -/
theorem duplicate_suppressor_threshold_witness :
    ratio "abcx" "abcyyz" = mkRat 3 5 ∧
    is_similar "abcx" "abcyyz" = false ∧
    stepHit ⟨fun _ => none, fun _ => ""⟩ [] none none ⟨["abcyyz"], [], []⟩
        ⟨"abcx", "u", "s", "d", "b"⟩ =
      ⟨["abcyyz", "abcx"], [⟨"abcx", "u", "s", "d", "b"⟩], []⟩ ∧
    stepHit ⟨fun _ => none, fun _ => ""⟩ [] none none ⟨["abcde"], [], []⟩
        ⟨"abcde", "u", "s", "d", "b"⟩ =
      ⟨["abcde"], [], []⟩ := by
  refine ⟨by decide, ?_, ?_, ?_⟩
  · exact (duplicate_suppressor_threshold ⟨fun _ => none, fun _ => ""⟩ [] none none
      ⟨["abcyyz"], [], []⟩ ⟨"abcx", "u", "s", "d", "b"⟩ (by decide) (by decide)).2.2.1
      "abcx" "abcyyz" (by decide)
  · exact (duplicate_suppressor_threshold ⟨fun _ => none, fun _ => ""⟩ [] none none
      ⟨["abcyyz"], [], []⟩ ⟨"abcx", "u", "s", "d", "b"⟩ (by decide) (by decide)).2.1
      (by decide)
  · exact (duplicate_suppressor_threshold ⟨fun _ => none, fun _ => ""⟩ [] none none
      ⟨["abcde"], [], []⟩ ⟨"abcde", "u", "s", "d", "b"⟩ (by decide) (by decide)).1.mpr
      ⟨"abcde", by simp, by decide⟩

/-- C3: under an active date window, a hit whose (non-empty) raw date string
fuzzy-parses to an instant survives the date gate iff the instant lies within
the supplied bounds, inclusive on both ends and with an unsupplied bound
unchecked; a hit whose date string is empty or does not parse is always
dropped (fails closed), and a date-dropped hit leaves the run state
untouched. -/
theorem date_window_filter (parse : String → Option Int) (ds de : Option Int)
    (s : String) (hwin : ds.isSome ∨ de.isSome) :
    (∀ dt : Int, s ≠ "" → parse s = some dt →
      (dateDrop parse ds de s = false ↔
        (∀ lo, ds = some lo → lo ≤ dt) ∧ (∀ hi, de = some hi → dt ≤ hi))) ∧
    ((s = "" ∨ parse s = none) → dateDrop parse ds de s = true) ∧
    (∀ (lib : DateLib) (excluded : List String) (st : FetchState) (h : RawHit),
      lib.parse = parse → h.date = s →
      exclDrop excluded h.title = false → dateDrop parse ds de s = true →
      stepHit lib excluded ds de st h = st) := by
  have hb : (ds.isSome || de.isSome) = true := by
    rcases hwin with h | h <;> simp [h]
  refine ⟨?_, ?_, ?_⟩
  · intro dt hne hps
    cases ds with
    | none =>
      cases de with
      | none => simp at hb
      | some hi => simp [dateDrop, is_in_date_range, hne, hps]
    | some lo =>
      cases de with
      | none => simp [dateDrop, is_in_date_range, hne, hps]
      | some hi => simp [dateDrop, is_in_date_range, hne, hps]
  · intro hfail
    rcases hfail with rfl | hnone
    · simp [dateDrop, is_in_date_range, hb]
    · by_cases hne : s = ""
      · subst hne
        simp [dateDrop, is_in_date_range, hb]
      · simp [dateDrop, is_in_date_range, hne, hnone, hb]
  · intro lib excluded st h hlib hdate hexcl hdrop
    unfold stepHit
    rw [hexcl, hdate, hlib, hdrop]
    simp

/-- Witness for C3 with a concrete fuzzy parser and the window `[3, 7]`:
the instant `5` passes, an unparseable date string is dropped. -/
theorem date_window_filter_witness :
    dateDrop (fun x => if x = "2024-01-05" then some 5 else none)
      (some 3) (some 7) "2024-01-05" = false ∧
    dateDrop (fun x => if x = "2024-01-05" then some 5 else none)
      (some 3) (some 7) "3 minutes ago" = true :=
  ⟨((date_window_filter (fun x => if x = "2024-01-05" then some 5 else none)
      (some 3) (some 7) "2024-01-05" (Or.inl rfl)).1 5 (by decide) (by decide)).mpr
      ⟨fun lo hlo => by injection hlo with h2; omega,
       fun hi hhi => by injection hhi with h2; omega⟩,
   (date_window_filter (fun x => if x = "2024-01-05" then some 5 else none)
      (some 3) (some 7) "3 minutes ago" (Or.inl rfl)).2.1 (Or.inr (by decide))⟩

end Newsletter
